import Mathlib

/-!
Verification of the chat-with-pdf RAG pipeline.

The development shallowly embeds the session / ingestion / question-answering
logic of `app.py` (the entrypoint) together with the configuration it passes to
its external collaborators.  Components whose implementation lives outside the
repository (the langchain text splitter, the Chroma vector index, the Python
builtin string hash, the PromptTemplate formatter) are modelled from the spec,
as marked by doc comments below.
-/

namespace ChatWithPdf

/-! ### Chunker configuration (src/app.py lines 88-92, src/logic/pdf_processor.py line 19) -/

def chunk_size : Nat := 1000

def chunk_overlap : Nat := 200

def chunk_step : Nat := chunk_size - chunk_overlap

theorem chunk_size_eq : chunk_size = 1000 := rfl

theorem chunk_overlap_eq : chunk_overlap = 200 := rfl

theorem chunk_step_eq : chunk_step = 800 := rfl

/-- Modelled from the spec: the splitter implementation
(`RecursiveCharacterTextSplitter`, external langchain code, only its caller with
`chunk_size=1000, chunk_overlap=200` is in src).  Per spec section 4.1 the
Chunker slides a window of target size 1000 advancing by 800 characters per
step; the final chunk may be shorter; empty input yields an empty sequence. -/
def slideChunks (text : List Char) : List (List Char) :=
  if text.isEmpty then []
  else if text.length ≤ chunk_size then [text]
  else text.take chunk_size :: slideChunks (text.drop chunk_step)
termination_by text.length
decreasing_by
  simp only [List.length_drop, chunk_step, chunk_size, chunk_overlap] at *
  omega

theorem slideChunks_nil : slideChunks [] = [] := by
  unfold slideChunks
  simp

theorem slideChunks_short (text : List Char) (h0 : text ≠ []) (h : text.length ≤ chunk_size) :
    slideChunks text = [text] := by
  unfold slideChunks
  simp [h0, h]

theorem slideChunks_long (text : List Char) (h : chunk_size < text.length) :
    slideChunks text = text.take chunk_size :: slideChunks (text.drop chunk_step) := by
  have h0 : text ≠ [] := by
    intro e
    subst e
    simp [chunk_size] at h
  conv_lhs => rw [slideChunks]
  simp [h0, Nat.not_le.mpr h]

theorem slideChunks_cons (text : List Char) (h0 : text ≠ []) :
    ∃ cs, slideChunks text = text.take chunk_size :: cs := by
  rcases le_or_lt text.length chunk_size with hle | hlt
  · refine ⟨[], ?_⟩
    rw [slideChunks_short text h0 hle, List.take_of_length_le hle]
  · exact ⟨_, slideChunks_long text hlt⟩

theorem slideChunks_getElem? (text : List Char) :
    ∀ i, i < (slideChunks text).length →
      (slideChunks text)[i]? = some ((text.drop (800 * i)).take 1000) := by
  generalize hn : text.length = n
  induction n using Nat.strong_induction_on generalizing text with
  | _ n ih =>
    intro i hi
    rcases eq_or_ne text [] with rfl | h0
    · rw [slideChunks_nil] at hi
      simp at hi
    · rcases le_or_lt text.length chunk_size with hle | hlt
      · rw [slideChunks_short text h0 hle] at hi ⊢
        simp only [List.length_singleton] at hi
        interval_cases i
        rw [chunk_size_eq] at hle
        simp [List.take_of_length_le hle]
      · rw [slideChunks_long text hlt] at hi ⊢
        cases i with
        | zero =>
          rw [chunk_size_eq]
          simp
        | succ j =>
          have hstep : (text.drop chunk_step).length = n - 800 := by
            simp [hn, chunk_step_eq]
          have hlt800 : 800 < n := by
            rw [← hn]
            exact lt_of_le_of_lt (by rw [chunk_size_eq]; omega) hlt
          have hj : j < (slideChunks (text.drop chunk_step)).length := by
            simp only [List.length_cons] at hi
            omega
          have hrec := ih (n - 800) (by omega) (text.drop chunk_step) hstep j hj
          simp only [List.getElem?_cons_succ]
          rw [hrec, chunk_step_eq, List.drop_drop]
          rw [show (800 : Nat) + 800 * j = 800 * (j + 1) from by ring]

theorem slideChunks_get (text : List Char) (i : Nat) (h : i < (slideChunks text).length) :
    (slideChunks text).get ⟨i, h⟩ = (text.drop (800 * i)).take 1000 := by
  have h2 := slideChunks_getElem? text i h
  rw [List.getElem?_eq_getElem h] at h2
  simpa [List.get_eq_getElem] using h2

theorem slideChunks_bound (text : List Char) :
    ∀ i, i + 1 < (slideChunks text).length → 800 * i + 1000 < text.length := by
  generalize hn : text.length = n
  induction n using Nat.strong_induction_on generalizing text with
  | _ n ih =>
    intro i hi
    rcases eq_or_ne text [] with rfl | h0
    · rw [slideChunks_nil] at hi
      simp at hi
    · rcases le_or_lt text.length chunk_size with hle | hlt
      · rw [slideChunks_short text h0 hle] at hi
        simp at hi
      · rw [slideChunks_long text hlt] at hi
        rw [chunk_size_eq] at hlt
        have h1000 : 1000 < n := hn ▸ hlt
        cases i with
        | zero => omega
        | succ j =>
          have hstep : (text.drop chunk_step).length = n - 800 := by
            simp [hn, chunk_step_eq]
          have hj : j + 1 < (slideChunks (text.drop chunk_step)).length := by
            simp only [List.length_cons] at hi
            omega
          have hrec := ih (n - 800) (by omega) (text.drop chunk_step) hstep j hj
          omega

theorem slideChunks_length_2500 (text : List Char) (h : text.length = 2500) :
    (slideChunks text).length = 3 := by
  have h1 : chunk_size < text.length := by
    rw [chunk_size_eq, h]
    omega
  rw [slideChunks_long text h1]
  have h2 : chunk_size < (text.drop chunk_step).length := by
    simp [chunk_size_eq, chunk_step_eq, h]
  rw [slideChunks_long _ h2]
  have hlen : ((text.drop chunk_step).drop chunk_step).length = 900 := by
    simp [chunk_step_eq, h]
  have h3 : ((text.drop chunk_step).drop chunk_step) ≠ [] := by
    intro e
    rw [e] at hlen
    simp at hlen
  rw [slideChunks_short _ h3 (by rw [chunk_size_eq, hlen]; omega)]
  simp

/-- Concatenating each chunk minus its 200-character overlap with its
predecessor, per spec section 8 round-trip coverage. -/
def reassemble (chunks : List (List Char)) : List Char :=
  match chunks with
  | [] => []
  | c :: cs => c ++ (cs.map (fun d => d.drop chunk_overlap)).flatten

theorem drop_overlap_glue (l : List Char) :
    (l.take 1000).drop 200 ++ l.drop (l.take 1000).length = l.drop 200 := by
  have h1 : (l.take 1000).drop 200 = (l.drop 200).take 800 := by
    rw [List.drop_take]
  have h2 : l.drop (l.take 1000).length = (l.drop 200).drop 800 := by
    rw [List.drop_drop, List.length_take]
    rcases le_total l.length 1000 with hle | hge
    · rw [Nat.min_eq_right hle, List.drop_eq_nil_of_le le_rfl,
        List.drop_eq_nil_of_le (by omega)]
    · rw [Nat.min_eq_left hge]
  rw [h1, h2, List.take_append_drop]

/-- C2: for every document, chunking its text and then concatenating the
non-overlap portions of the resulting chunks (each chunk minus its
200-character overlap with its predecessor) reconstructs the text exactly:
chunking loses no text and duplicates only the specified overlap. -/
theorem chunker_roundtrip (text : List Char) :
    reassemble (slideChunks text) = text := by
  generalize hn : text.length = n
  induction n using Nat.strong_induction_on generalizing text with
  | _ n ih =>
    rcases eq_or_ne text [] with rfl | h0
    · rw [slideChunks_nil]
      rfl
    · rcases le_or_lt text.length chunk_size with hle | hlt
      · rw [slideChunks_short text h0 hle]
        simp [reassemble]
      · rw [slideChunks_long text hlt]
        have hlt1000 : 1000 < text.length := by rwa [chunk_size_eq] at hlt
        have hstep : (text.drop chunk_step).length = n - 800 := by
          simp [hn, chunk_step_eq]
        have ht0 : text.drop chunk_step ≠ [] := by
          intro e
          rw [e] at hstep
          simp at hstep
          omega
        have hrec := ih (n - 800) (by omega) (text.drop chunk_step) hstep
        obtain ⟨cs, hcs⟩ := slideChunks_cons (text.drop chunk_step) ht0
        rw [hcs] at hrec
        rw [hcs]
        simp only [reassemble, List.map_cons, List.flatten_cons] at hrec ⊢
        have hx := congrArg
          (fun l => l.drop ((List.take chunk_size (text.drop chunk_step)).length)) hrec
        simp only [List.drop_left] at hx
        rw [hx]
        simp only [chunk_size_eq, chunk_overlap_eq, chunk_step_eq]
        rw [drop_overlap_glue (text.drop 800)]
        rw [List.drop_drop]
        rw [show (800 : Nat) + 200 = 1000 from rfl]
        exact List.take_append_drop 1000 text

/-- C1: the Chunker produces chunks by a sliding window of target size 1000
characters advancing 800 characters per step: chunk i is the 1000-character
window at offset 800 i, every non-final chunk has length exactly 1000 (only the
final chunk may be shorter), consecutive chunks overlap by exactly 200
characters, and a 2500-character document yields exactly 3 chunks. -/
theorem chunker_sliding_window (text : List Char) :
    (∀ (i : Nat) (h : i < (slideChunks text).length),
        (slideChunks text).get ⟨i, h⟩ = (text.drop (chunk_step * i)).take chunk_size)
    ∧ (∀ (i : Nat) (h : i + 1 < (slideChunks text).length),
        ((slideChunks text).get ⟨i, Nat.lt_of_succ_lt h⟩).length = chunk_size
          ∧ ((slideChunks text).get ⟨i + 1, h⟩).take chunk_overlap
              = ((slideChunks text).get ⟨i, Nat.lt_of_succ_lt h⟩).drop chunk_step)
    ∧ (text.length = 2500 → (slideChunks text).length = 3) := by
  refine ⟨?_, ?_, slideChunks_length_2500 text⟩
  · intro i h
    rw [slideChunks_get text i h, chunk_step_eq, chunk_size_eq]
  · intro i h
    have hb := slideChunks_bound text i h
    constructor
    · rw [slideChunks_get text i (Nat.lt_of_succ_lt h), chunk_size_eq]
      rw [List.length_take, List.length_drop]
      omega
    · rw [slideChunks_get text i (Nat.lt_of_succ_lt h), slideChunks_get text (i + 1) h,
        chunk_overlap_eq, chunk_step_eq]
      rw [List.take_take, Nat.min_eq_left (by omega), List.drop_take, List.drop_drop]
      rw [show (1000 : Nat) - 800 = 200 from rfl]
      rw [show 800 * i + 800 = 800 * (i + 1) from by ring]

theorem chunker_sliding_window_witness :
    (slideChunks (List.replicate 2500 'a')).length = 3 :=
  (chunker_sliding_window (List.replicate 2500 'a')).2.2 (List.length_replicate 2500 'a')

/-! ### Data model of the session (src/app.py) -/

/-- A page produced by the document loader (PyPDFLoader, external): extracted
text plus its page number. -/
structure Page where
  page_content : List Char
  page : Nat
deriving DecidableEq

/-- A chunk is a contiguous span of extracted text. -/
abbrev Chunk := List Char

/-- Splitting the loaded pages into chunks (src/app.py lines 87-95).  Modelled
from the spec: the splitter implementation is external langchain code; per spec
section 4.1 the Chunker concatenates page text in page order and slides the
1000/800 window over the concatenation. -/
def split_documents (documents : List Page) : List Chunk :=
  slideChunks ((documents.map Page.page_content).flatten)

/-- A vector store as created by `Chroma.from_documents` (src/app.py lines
103-121).  Modelled from the spec, section 4.3: a fresh collection identified by
its key, holding exactly the chunks (with their embeddings) added to it. -/
structure VectorStore where
  collection_name : String
  docs : List Chunk
deriving DecidableEq

/-- The RetrievalQA chain (src/app.py lines 152-161): bound to the vector store
used as retriever with `k = 4`. -/
structure QAChain where
  vectorstore : VectorStore
  k : Nat
deriving DecidableEq

/-- A conversation turn as appended to `st.session_state.messages`: a dict with
role, content, id, and (for assistant turns) sources. -/
structure Message where
  role : String
  content : String
  sources : Option (List Chunk)
  id : Nat
deriving DecidableEq

/-- The Streamlit session state (src/app.py lines 30-39). -/
structure SessionState where
  messages : List Message
  vectorstore : Option VectorStore
  qa_chain : Option QAChain
  processed_file : Option String
  message_counter : Nat
deriving DecidableEq

/-- Initial session state (src/app.py lines 30-39): no collection ingested
(the Unready state), empty conversation log, counter 0. -/
def initialSession : SessionState :=
  { messages := [], vectorstore := none, qa_chain := none,
    processed_file := none, message_counter := 0 }

/-- An uploaded PDF: name plus raw bytes (opaque). -/
structure UploadedFile where
  name : String
  content : List Char
deriving DecidableEq

/-- Outcomes of the external calls made inside the `try` block of
`process_pdf`: loading the PDF, constructing the embeddings client, and
building the Chroma collection (which embeds every chunk, so an
embedding-service failure surfaces here).  Any `error` value models the
corresponding stage raising an exception. -/
structure IngestEnv where
  loadResult : Except String (List Page)
  embeddingsInit : Except String Unit
  indexResult : Except String Unit

/-- The collection key (src/app.py line 107):
`f-string pdf_collection_{hash(uploaded_file.name) % 10000}`.  The Python
builtin `hash` is modelled from the spec as a function `hash` fixed for the
whole process; Python `%` on a positive modulus agrees with `Int.emod`. -/
def collection_name_of (hash : String → Int) (name : String) : String :=
  "pdf_collection_" ++ toString (hash name % 10000)

/-- Shallow embedding of `process_pdf` (src/app.py lines 70-169): the `try`
block runs load, split, embeddings init, and index creation in order inside the
`Except` monad; the `except` clause of the source is modelled by the caller
(`handleProcessClick`).  On success it returns the vector store, the QA chain
and the number of chunks. -/
def process_pdf (hash : String → Int) (uploaded_file : UploadedFile) (env : IngestEnv) :
    Except String (VectorStore × QAChain × Nat) :=
  match env.loadResult with
  | .error e => .error e
  | .ok documents =>
    let texts := split_documents documents
    match env.embeddingsInit with
    | .error e => .error e
    | .ok _ =>
      let cname := collection_name_of hash uploaded_file.name
      match env.indexResult with
      | .error e => .error e
      | .ok _ =>
        let vectorstore : VectorStore := { collection_name := cname, docs := texts }
        let qa_chain : QAChain := { vectorstore := vectorstore, k := 4 }
        .ok (vectorstore, qa_chain, texts.length)

/-- The Process-PDF button handler (src/app.py lines 231-240): on success the
session state is replaced wholesale (new store, new chain, messages cleared,
counter reset); on failure `process_pdf` returned `(None, None, 0)` after
reporting the error with `st.error`, and the session state is not written.
The second component is the error report, if any. -/
def handleProcessClick (hash : String → Int) (s : SessionState) (uploaded_file : UploadedFile)
    (env : IngestEnv) : SessionState × Option String :=
  match process_pdf hash uploaded_file env with
  | .ok (vs, qc, _n) =>
      ({ messages := [], vectorstore := some vs, qa_chain := some qc,
         processed_file := some uploaded_file.name, message_counter := 0 }, none)
  | .error e => (s, some ("❌ Error processing PDF: " ++ e))

/-- Similarity search over a collection.  Modelled from the spec, section 4.3:
the k nearest neighbours, highest similarity first, ties broken by original
insertion order (stable); fewer than k items means all of them.  `score` gives
the similarity of each stored chunk to the query. -/
def insertByScore (score : Chunk → Int) (c : Chunk) : List Chunk → List Chunk
  | [] => [c]
  | d :: ds => if score d < score c then c :: d :: ds else d :: insertByScore score c ds

/-- Stable descending sort by similarity score. -/
def sortByScoreDesc (score : Chunk → Int) (docs : List Chunk) : List Chunk :=
  docs.foldl (fun acc c => insertByScore score c acc) []

/-- Modelled from the spec, section 4.3: `search` returns the top-k stored
chunks by similarity. -/
def search (vs : VectorStore) (score : Chunk → Int) (k : Nat) : List Chunk :=
  (sortByScoreDesc score vs.docs).take k

/-- Shallow embedding of `get_answer` (src/app.py lines 172-181):
`invokeResult` is the outcome of the external `qa_chain.invoke` call (answer
text plus source documents).  Returns `(answer, sources, reported error)`;
on failure the answer is `none` and the sources are `[]`. -/
def get_answer (question : String) (qa_chain : QAChain)
    (invokeResult : Except String (String × List Chunk)) :
    Option String × List Chunk × Option String :=
  match invokeResult with
  | .ok (res, srcs) => (some res, srcs, none)
  | .error e => (none, [], some ("❌ Error getting answer: " ++ e))

/-- A sample-question button click (src/app.py lines 288-307): in Ready state
it appends the user turn, asks, and appends the assistant turn only when an
answer came back (Python truthiness: `None` and the empty string are falsy);
in Unready state it only reports a warning.  The second component is the
reported warning, if any. -/
def handleSampleQuestion (s : SessionState) (question : String)
    (invokeResult : Except String (String × List Chunk)) : SessionState × Option String :=
  match s.qa_chain with
  | some qc =>
    let c1 := s.message_counter + 1
    let userTurn : Message := { role := "user", content := question, sources := none, id := c1 }
    let s1 : SessionState := { s with message_counter := c1, messages := s.messages ++ [userTurn] }
    let (answer, sources, _err) := get_answer question qc invokeResult
    (match answer with
     | some a =>
        if a = "" then s1
        else
          let asstTurn : Message :=
            { role := "assistant", content := a, sources := some sources, id := c1 + 1 }
          { s1 with message_counter := c1 + 1, messages := s1.messages ++ [asstTurn] }
     | none => s1, none)
  | none => (s, some "⚠️ Please upload and process a PDF first!")

/-- The warning shown instead of the chat interface when no PDF has been
processed (src/app.py lines 313-316); the chat input is rendered only in the
`else` branch. -/
def chatSectionWarning (s : SessionState) : Option String :=
  match s.qa_chain with
  | none => some "⚠️ Please upload and process a PDF file first!"
  | some _ => none

/-- The chat-input handler (src/app.py lines 332-360).  It is only reachable
in Ready state (the chat input is not rendered otherwise, modelled by the
identity on `none`): appends the user turn, asks, and appends the assistant
turn only when an answer came back. -/
def handleChatInput (s : SessionState) (prompt : String)
    (invokeResult : Except String (String × List Chunk)) : SessionState :=
  match s.qa_chain with
  | some qc =>
    let c1 := s.message_counter + 1
    let userTurn : Message := { role := "user", content := prompt, sources := none, id := c1 }
    let s1 : SessionState := { s with message_counter := c1, messages := s.messages ++ [userTurn] }
    let (answer, sources, _err) := get_answer prompt qc invokeResult
    (match answer with
     | some a =>
        if a = "" then s1
        else
          let asstTurn : Message :=
            { role := "assistant", content := a, sources := some sources, id := c1 + 1 }
          { s1 with message_counter := c1 + 1, messages := s1.messages ++ [asstTurn] }
     | none => s1)
  | none => s

/-- The Clear-Chat button (src/app.py lines 373-376): the log is cleared
wholesale and the counter reset. -/
def clearChat (s : SessionState) : SessionState :=
  { s with messages := [], message_counter := 0 }

/-! ### Search returns only stored chunks -/

theorem mem_insertByScore (score : Chunk → Int) (c d : Chunk) (l : List Chunk)
    (h : d ∈ insertByScore score c l) : d = c ∨ d ∈ l := by
  induction l with
  | nil =>
    simp [insertByScore] at h
    exact Or.inl h
  | cons x xs ih =>
    simp only [insertByScore] at h
    by_cases hc : score x < score c
    · rw [if_pos hc] at h
      rcases List.mem_cons.mp h with h1 | h1
      · exact Or.inl h1
      · exact Or.inr h1
    · rw [if_neg hc] at h
      rcases List.mem_cons.mp h with h1 | h1
      · exact Or.inr (List.mem_cons.mpr (Or.inl h1))
      · rcases ih h1 with h2 | h2
        · exact Or.inl h2
        · exact Or.inr (List.mem_cons.mpr (Or.inr h2))

theorem mem_sortByScoreDesc (score : Chunk → Int) (l : List Chunk) (d : Chunk)
    (h : d ∈ sortByScoreDesc score l) : d ∈ l := by
  have aux : ∀ (l : List Chunk) (acc : List Chunk),
      d ∈ l.foldl (fun acc c => insertByScore score c acc) acc → d ∈ acc ∨ d ∈ l := by
    intro l
    induction l with
    | nil => intro acc h; exact Or.inl h
    | cons x xs ih =>
      intro acc h
      rcases ih (insertByScore score x acc) h with h1 | h1
      · rcases mem_insertByScore score x d acc h1 with h2 | h2
        · exact Or.inr (List.mem_cons.mpr (Or.inl h2))
        · exact Or.inl h2
      · exact Or.inr (List.mem_cons.mpr (Or.inr h1))
  rcases aux l [] h with h1 | h1
  · simp at h1
  · exact h1

theorem search_subset_docs (vs : VectorStore) (score : Chunk → Int) (k : Nat) (c : Chunk)
    (h : c ∈ search vs score k) : c ∈ vs.docs :=
  mem_sortByScoreDesc score vs.docs c (List.take_subset k _ h)

/-! ### Inversion of a successful ingest -/

theorem process_pdf_ok (hash : String → Int) (uploaded_file : UploadedFile) (env : IngestEnv)
    (vs : VectorStore) (qc : QAChain) (n : Nat)
    (h : process_pdf hash uploaded_file env = .ok (vs, qc, n)) :
    vs.collection_name = collection_name_of hash uploaded_file.name
    ∧ (∀ pages, env.loadResult = .ok pages → vs.docs = split_documents pages) := by
  obtain ⟨load, emb, idx⟩ := env
  cases load with
  | error e => simp [process_pdf] at h
  | ok pages =>
    cases emb with
    | error e => simp [process_pdf] at h
    | ok u =>
      cases idx with
      | error e => simp [process_pdf] at h
      | ok v =>
        simp only [process_pdf, Except.ok.injEq, Prod.mk.injEq] at h
        obtain ⟨hvs, -, -⟩ := h
        subst hvs
        exact ⟨rfl, by intro p hp; cases hp; rfl⟩

/-! ### Claims about ingest failure, replacement, and the key -/

def zeroHash : String → Int := fun _ => 0

def exampleOldStore : VectorStore :=
  { collection_name := "pdf_collection_7", docs := [['o'], ['l'], ['d']] }

def exampleReadySession : SessionState :=
  { messages := [], vectorstore := some exampleOldStore,
    qa_chain := some { vectorstore := exampleOldStore, k := 4 },
    processed_file := some "old.pdf", message_counter := 0 }

def exampleFile : UploadedFile := { name := "new.pdf", content := ['%', 'P', 'D', 'F'] }

def exampleNewPage : Page := { page_content := ['n', 'e', 'w'], page := 0 }

def exampleFailEnv : IngestEnv :=
  { loadResult := .ok [exampleNewPage], embeddingsInit := .ok (),
    indexResult := .error "embedding service unavailable" }

def exampleGoodEnv : IngestEnv :=
  { loadResult := .ok [exampleNewPage], embeddingsInit := .ok (), indexResult := .ok () }

def exampleNewDocs : List Chunk := split_documents [exampleNewPage]

def exampleNewStore : VectorStore :=
  { collection_name := collection_name_of zeroHash "new.pdf", docs := exampleNewDocs }

/-- C3 counterexample: from a Ready session, an ingest whose indexing stage
fails (the embedding-service failure surfaces there) does NOT leave the session
Unready with the prior collection discarded: the prior collection is still the
vector store of the session afterwards. -/
theorem ingest_failure_counterexample :
    ((handleProcessClick zeroHash exampleReadySession exampleFile exampleFailEnv).1).vectorstore
        = some exampleOldStore
    ∧ ((handleProcessClick zeroHash exampleReadySession exampleFile exampleFailEnv).1).vectorstore
        ≠ none := by
  have hx : ((handleProcessClick zeroHash exampleReadySession exampleFile
      exampleFailEnv).1).vectorstore = some exampleOldStore := rfl
  refine ⟨hx, ?_⟩
  rw [hx]
  simp

/-- C3 (amended): if any stage of ingest fails, the failure is reported and the
session keeps its prior state unchanged: an Unready session stays Unready (so
no half-built collection is ever reachable), and a Ready session keeps its
prior collection intact rather than having it discarded. -/
theorem ingest_failure_keeps_prior_state (hash : String → Int) (s : SessionState)
    (uploaded_file : UploadedFile) (env : IngestEnv) (e : String)
    (h : process_pdf hash uploaded_file env = .error e) :
    handleProcessClick hash s uploaded_file env
      = (s, some ("❌ Error processing PDF: " ++ e)) := by
  simp [handleProcessClick, h]

theorem ingest_failure_keeps_prior_state_witness :
    handleProcessClick zeroHash exampleReadySession exampleFile exampleFailEnv
      = (exampleReadySession, some "❌ Error processing PDF: embedding service unavailable") :=
  ingest_failure_keeps_prior_state zeroHash exampleReadySession exampleFile exampleFailEnv
    "embedding service unavailable" rfl

/-- C4: a successful (re-)ingest replaces the collection held by the session with the
fresh one: the new store holds exactly the chunks split from the newly loaded
document, the outcome is independent of whatever collection the session held
before (old data discarded, no merge), and every query result is drawn from the
chunks of the new store, so chunks of the discarded document are never returned. -/
theorem reingest_replaces_collection (hash : String → Int) (s : SessionState)
    (uploaded_file : UploadedFile) (env : IngestEnv) (vs : VectorStore) (qc : QAChain) (n : Nat)
    (h : process_pdf hash uploaded_file env = .ok (vs, qc, n)) :
    (handleProcessClick hash s uploaded_file env).1.vectorstore = some vs
    ∧ (∀ pages, env.loadResult = .ok pages → vs.docs = split_documents pages)
    ∧ (∀ s₂ : SessionState, (handleProcessClick hash s₂ uploaded_file env).1
        = (handleProcessClick hash s uploaded_file env).1)
    ∧ (∀ score k c, c ∈ search vs score k → c ∈ vs.docs) := by
  refine ⟨?_, (process_pdf_ok hash uploaded_file env vs qc n h).2, ?_, ?_⟩
  · simp [handleProcessClick, h]
  · intro s₂
    simp [handleProcessClick, h]
  · intro score k c hc
    exact search_subset_docs vs score k c hc

theorem reingest_replaces_collection_witness :
    (handleProcessClick zeroHash exampleReadySession exampleFile exampleGoodEnv).1.vectorstore
      = some exampleNewStore :=
  (reingest_replaces_collection zeroHash exampleReadySession exampleFile exampleGoodEnv
    exampleNewStore { vectorstore := exampleNewStore, k := 4 } exampleNewDocs.length rfl).1

/-- C8: the collection key of a successful ingest is a deterministic function
of the document name alone (given the process-wide hash function): two ingests
of files with the same name, from different session states, contents and stage
outcomes, produce the same collection key. -/
theorem collection_key_deterministic (hash : String → Int) (f₁ f₂ : UploadedFile)
    (env₁ env₂ : IngestEnv) (vs₁ vs₂ : VectorStore) (qc₁ qc₂ : QAChain) (n₁ n₂ : Nat)
    (h₁ : process_pdf hash f₁ env₁ = .ok (vs₁, qc₁, n₁))
    (h₂ : process_pdf hash f₂ env₂ = .ok (vs₂, qc₂, n₂))
    (hname : f₁.name = f₂.name) :
    vs₁.collection_name = vs₂.collection_name
    ∧ vs₁.collection_name = collection_name_of hash f₁.name := by
  have k₁ := (process_pdf_ok hash f₁ env₁ vs₁ qc₁ n₁ h₁).1
  have k₂ := (process_pdf_ok hash f₂ env₂ vs₂ qc₂ n₂ h₂).1
  rw [k₁, k₂, hname]
  exact ⟨rfl, rfl⟩

def exampleFileB : UploadedFile := { name := "new.pdf", content := ['X'] }

def examplePageB : Page := { page_content := ['o', 't', 'h', 'e', 'r'], page := 3 }

def exampleGoodEnvB : IngestEnv :=
  { loadResult := .ok [examplePageB], embeddingsInit := .ok (), indexResult := .ok () }

def exampleNewStoreB : VectorStore :=
  { collection_name := collection_name_of zeroHash "new.pdf",
    docs := split_documents [examplePageB] }

theorem collection_key_deterministic_witness :
    exampleNewStore.collection_name = exampleNewStoreB.collection_name :=
  (collection_key_deterministic zeroHash exampleFile exampleFileB exampleGoodEnv exampleGoodEnvB
    exampleNewStore exampleNewStoreB { vectorstore := exampleNewStore, k := 4 }
    { vectorstore := exampleNewStoreB, k := 4 } exampleNewDocs.length
    (split_documents [examplePageB]).length rfl rfl rfl).1

/-- C5: asking before any successful ingest (Unready state, `qa_chain` absent)
always reports the not-ready warning and never produces a synthesized answer:
a sample-question click leaves the session unchanged and reports the warning,
the chat section shows the not-ready warning instead of the chat input, and no
chat submission can alter the session. -/
theorem ask_unready_reports_not_ready (s : SessionState) (q : String)
    (invokeResult : Except String (String × List Chunk)) (h : s.qa_chain = none) :
    handleSampleQuestion s q invokeResult
        = (s, some "⚠️ Please upload and process a PDF first!")
    ∧ chatSectionWarning s = some "⚠️ Please upload and process a PDF file first!"
    ∧ handleChatInput s q invokeResult = s := by
  refine ⟨?_, ?_, ?_⟩ <;> simp [handleSampleQuestion, chatSectionWarning, handleChatInput, h]

theorem ask_unready_reports_not_ready_witness :
    handleSampleQuestion initialSession "What is the main topic?" (.ok ("an answer", []))
      = (initialSession, some "⚠️ Please upload and process a PDF first!") :=
  (ask_unready_reports_not_ready initialSession "What is the main topic?"
    (.ok ("an answer", [])) rfl).1

/-- C6: when the answering call raises an error, that single ask is aborted:
the collection (vector store and chain) is unchanged, the log receives exactly
the user turn of that ask, and no assistant turn is appended. -/
theorem ask_failure_aborts_single_ask (s : SessionState) (qc : QAChain) (q e : String)
    (h : s.qa_chain = some qc) :
    (handleChatInput s q (.error e)).vectorstore = s.vectorstore
    ∧ (handleChatInput s q (.error e)).qa_chain = s.qa_chain
    ∧ (handleChatInput s q (.error e)).messages
        = s.messages
            ++ [{ role := "user", content := q, sources := none, id := s.message_counter + 1 }]
    ∧ ∀ m ∈ (handleChatInput s q (.error e)).messages, m.role = "assistant" → m ∈ s.messages := by
  have hstep : handleChatInput s q (.error e)
      = { s with
          message_counter := s.message_counter + 1
          messages := s.messages
            ++ [{ role := "user", content := q, sources := none, id := s.message_counter + 1 }] } := by
    simp [handleChatInput, h, get_answer]
  rw [hstep]
  refine ⟨rfl, rfl, rfl, ?_⟩
  intro m hm hrole
  rcases List.mem_append.mp hm with h1 | h1
  · exact h1
  · simp at h1
    rw [h1] at hrole
    simp at hrole

theorem ask_failure_aborts_single_ask_witness :
    (handleChatInput exampleReadySession "q" (.error "boom")).vectorstore
      = exampleReadySession.vectorstore :=
  (ask_failure_aborts_single_ask exampleReadySession
    { vectorstore := exampleOldStore, k := 4 } "q" "boom" rfl).1

/-- C10: after every successful ingest the conversation log is cleared to empty
and the message sequence counter is reset to 0. -/
theorem ingest_success_clears_log (hash : String → Int) (s : SessionState)
    (uploaded_file : UploadedFile) (env : IngestEnv) (vs : VectorStore) (qc : QAChain) (n : Nat)
    (h : process_pdf hash uploaded_file env = .ok (vs, qc, n)) :
    (handleProcessClick hash s uploaded_file env).1.messages = []
    ∧ (handleProcessClick hash s uploaded_file env).1.message_counter = 0 := by
  simp [handleProcessClick, h]

theorem ingest_success_clears_log_witness :
    (handleProcessClick zeroHash exampleReadySession exampleFile exampleGoodEnv).1.messages
      = [] :=
  (ingest_success_clears_log zeroHash exampleReadySession exampleFile exampleGoodEnv
    exampleNewStore { vectorstore := exampleNewStore, k := 4 } exampleNewDocs.length rfl).1

/-! ### The grounding prompt (src/app.py lines 126-143) -/

/-- The prompt template of the QA chain, verbatim from src/app.py lines
126-139 (a Python triple-quoted string, including its indentation and
trailing spaces). -/
def prompt_template : String :=
  "\n        You are a helpful AI assistant that answers questions based on the provided context from a PDF document.\n        \n        Use the following pieces of context to answer the question at the end. \n        If you don\x27t know the answer based on the context, just say that you don\x27t know, don\x27t try to make up an answer.\n        Be specific and provide detailed answers when possible.\n        \n        Context:\n        {context}\n        \n        Question: {question}\n        \n        Answer:"

/-- The template text before the context slot. -/
def template_pre : String :=
  "\n        You are a helpful AI assistant that answers questions based on the provided context from a PDF document.\n        \n        Use the following pieces of context to answer the question at the end. \n        If you don\x27t know the answer based on the context, just say that you don\x27t know, don\x27t try to make up an answer.\n        Be specific and provide detailed answers when possible.\n        \n        Context:\n        "

/-- The template text between the context slot and the question slot. -/
def template_mid : String := "\n        \n        Question: "

/-- The template text after the question slot. -/
def template_post : String := "\n        \n        Answer:"

/-- The grounding-policy instruction embedded in the template, verbatim. -/
def promptPolicyInstruction : String :=
  "If you don\x27t know the answer based on the context, just say that you don\x27t know, don\x27t try to make up an answer."

/-- Modelled from the spec: `PromptTemplate.format` (external langchain code;
src declares the template with `input_variables=[context, question]`) fills the
two slots simultaneously with the given values. -/
def format_prompt (context question : String) : String :=
  template_pre ++ context ++ template_mid ++ question ++ template_post

/-- Modelled from the spec: the `stuff` chain passes the retrieved chunk texts,
concatenated in retrieval order, as the context value, and the literal question
text as the question value. -/
def synthesize_prompt (chunks : List Chunk) (question : String) : String :=
  format_prompt (String.intercalate "\n\n" (chunks.map fun c => String.mk c)) question

/-- True when `pat` is an initial segment of `l`. -/
def beginsWith : List Char → List Char → Bool
  | [], _ => true
  | _ :: _, [] => false
  | p :: ps, c :: cs => p == c && beginsWith ps cs

/-- Number of positions of `l` at which `pat` occurs. -/
def countOccs (pat l : List Char) : Nat :=
  ((List.range (l.length + 1)).filter (fun i => beginsWith pat (l.drop i))).length

set_option maxRecDepth 40000 in
/-- C7: the grounding prompt is a deterministic function of exactly two slots:
the template is the fixed text around one context slot and one question slot
(and contains exactly two opening braces, so no further slot), filling the
slots puts the concatenated retrieved chunk texts and the literal question text
into those positions, and the template contains the instruction to say it does
not know rather than fabricate, verbatim, exactly once. -/
theorem prompt_two_slots_and_policy :
    prompt_template
        = template_pre ++ "{context}" ++ template_mid ++ "{question}" ++ template_post
    ∧ (∀ (chunks : List Chunk) (question : String),
        synthesize_prompt chunks question
          = template_pre ++ String.intercalate "\n\n" (chunks.map fun c => String.mk c)
              ++ template_mid ++ question ++ template_post)
    ∧ countOccs "{context}".toList prompt_template.toList = 1
    ∧ countOccs "{question}".toList prompt_template.toList = 1
    ∧ countOccs ['\x7b'] prompt_template.toList = 2
    ∧ countOccs promptPolicyInstruction.toList prompt_template.toList = 1 := by
  refine ⟨by decide, fun chunks question => rfl, by decide, by decide, by decide, by decide⟩

/-! ### The conversation log is append-only with monotone sequence ids -/

/-- The session mutations of `main` (src/app.py): a sample-question click, a
chat submission, the Clear-Chat button, and the Process-PDF button. -/
inductive Step where
  | sample (question : String) (invokeResult : Except String (String × List Chunk))
  | chatInput (prompt : String) (invokeResult : Except String (String × List Chunk))
  | clear
  | process (uploaded_file : UploadedFile) (env : IngestEnv)

def stepFn (hash : String → Int) (s : SessionState) : Step → SessionState
  | .sample q inv => (handleSampleQuestion s q inv).1
  | .chatInput q inv => handleChatInput s q inv
  | .clear => clearChat s
  | .process f env => (handleProcessClick hash s f env).1

def runSession (hash : String → Int) (steps : List Step) : SessionState :=
  steps.foldl (stepFn hash) initialSession

/-- Log invariant: every id in the log is bounded by the counter and the ids
are strictly increasing along the log. -/
def logInv (s : SessionState) : Prop :=
  (∀ m ∈ s.messages, m.id ≤ s.message_counter)
  ∧ s.messages.Pairwise (fun a b => a.id < b.id)

theorem handleSampleQuestion_fst (s : SessionState) (q : String)
    (inv : Except String (String × List Chunk)) :
    (handleSampleQuestion s q inv).1 = handleChatInput s q inv := by
  cases hq : s.qa_chain with
  | none => simp [handleSampleQuestion, handleChatInput, hq]
  | some qc =>
    cases inv with
    | error e => simp [handleSampleQuestion, handleChatInput, hq, get_answer]
    | ok res =>
      obtain ⟨a, srcs⟩ := res
      by_cases ha : a = "" <;>
        simp [handleSampleQuestion, handleChatInput, hq, get_answer, ha]

theorem handleChatInput_shape (s : SessionState) (q : String)
    (inv : Except String (String × List Chunk)) :
    handleChatInput s q inv = s
    ∨ (∃ u : Message, u.id = s.message_counter + 1
        ∧ handleChatInput s q inv
            = { s with
                message_counter := s.message_counter + 1
                messages := s.messages ++ [u] })
    ∨ (∃ u a : Message, u.id = s.message_counter + 1 ∧ a.id = s.message_counter + 1 + 1
        ∧ handleChatInput s q inv
            = { s with
                message_counter := s.message_counter + 1 + 1
                messages := s.messages ++ [u, a] }) := by
  cases hq : s.qa_chain with
  | none => exact Or.inl (by simp [handleChatInput, hq])
  | some qc =>
    cases inv with
    | error e =>
      refine Or.inr (Or.inl
        ⟨{ role := "user", content := q, sources := none, id := s.message_counter + 1 }, rfl, ?_⟩)
      simp [handleChatInput, hq, get_answer]
    | ok res =>
      obtain ⟨a, srcs⟩ := res
      by_cases ha : a = ""
      · refine Or.inr (Or.inl
          ⟨{ role := "user", content := q, sources := none, id := s.message_counter + 1 }, rfl, ?_⟩)
        simp [handleChatInput, hq, get_answer, ha]
      · refine Or.inr (Or.inr
          ⟨{ role := "user", content := q, sources := none, id := s.message_counter + 1 },
           { role := "assistant", content := a, sources := some srcs, id := s.message_counter + 1 + 1 },
           rfl, rfl, ?_⟩)
        simp [handleChatInput, hq, get_answer, ha]

theorem logInv_append (s : SessionState) (delta : List Message) (newc : Nat)
    (hb : logInv s)
    (hd : delta.Pairwise (fun a b => a.id < b.id))
    (hgt : ∀ m ∈ delta, s.message_counter < m.id)
    (hle : ∀ m ∈ delta, m.id ≤ newc)
    (hc : s.message_counter ≤ newc) :
    (∀ m ∈ s.messages ++ delta, m.id ≤ newc)
    ∧ (s.messages ++ delta).Pairwise (fun a b => a.id < b.id)
    ∧ (∀ m ∈ delta, ∀ p ∈ s.messages, p.id < m.id) := by
  refine ⟨?_, ?_, ?_⟩
  · intro m hm
    rcases List.mem_append.mp hm with h1 | h1
    · exact le_trans (hb.1 m h1) hc
    · exact hle m h1
  · refine List.pairwise_append.mpr ⟨hb.2, hd, ?_⟩
    intro x hx y hy
    exact lt_of_le_of_lt (hb.1 x hx) (hgt y hy)
  · intro m hm p hp
    exact lt_of_le_of_lt (hb.1 p hp) (hgt m hm)

theorem handleChatInput_log (s : SessionState) (q : String)
    (inv : Except String (String × List Chunk)) (hb : logInv s) :
    logInv (handleChatInput s q inv)
    ∧ ((∃ delta, (handleChatInput s q inv).messages = s.messages ++ delta
          ∧ ∀ m ∈ delta, ∀ p ∈ s.messages, p.id < m.id)
       ∨ (handleChatInput s q inv).messages = []) := by
  rcases handleChatInput_shape s q inv with h | ⟨u, hu, h⟩ | ⟨u, a, hu, ha, h⟩
  · rw [h]
    exact ⟨hb, Or.inl ⟨[], by simp, by simp⟩⟩
  · obtain ⟨hB, hP, hcross⟩ := logInv_append s [u] (s.message_counter + 1) hb
      (by simp)
      (by intro m hm; rw [List.mem_singleton] at hm; subst hm; rw [hu]; omega)
      (by intro m hm; rw [List.mem_singleton] at hm; subst hm; rw [hu])
      (by omega)
    rw [h]
    exact ⟨⟨hB, hP⟩, Or.inl ⟨[u], rfl, hcross⟩⟩
  · obtain ⟨hB, hP, hcross⟩ := logInv_append s [u, a] (s.message_counter + 1 + 1) hb
      (by rw [List.pairwise_pair, hu, ha]; omega)
      (by intro m hm
          rcases List.mem_cons.mp hm with h1 | h1
          · subst h1; rw [hu]; omega
          · rw [List.mem_singleton] at h1; subst h1; rw [ha]; omega)
      (by intro m hm
          rcases List.mem_cons.mp hm with h1 | h1
          · subst h1; rw [hu]; omega
          · rw [List.mem_singleton] at h1; subst h1; rw [ha])
      (by omega)
    rw [h]
    exact ⟨⟨hB, hP⟩, Or.inl ⟨[u, a], rfl, hcross⟩⟩

theorem stepFn_log (hash : String → Int) (s : SessionState) (st : Step) (hb : logInv s) :
    logInv (stepFn hash s st)
    ∧ ((∃ delta, (stepFn hash s st).messages = s.messages ++ delta
          ∧ ∀ m ∈ delta, ∀ p ∈ s.messages, p.id < m.id)
       ∨ (stepFn hash s st).messages = []) := by
  cases st with
  | clear =>
    refine ⟨⟨?_, ?_⟩, Or.inr rfl⟩
    · intro m hm
      simp [stepFn, clearChat] at hm
    · simp [stepFn, clearChat]
  | process f env =>
    rcases hp : process_pdf hash f env with e | val
    · have hs : stepFn hash s (.process f env) = s := by
        simp [stepFn, handleProcessClick, hp]
      rw [hs]
      exact ⟨hb, Or.inl ⟨[], by simp, by simp⟩⟩
    · obtain ⟨vs, qc, n⟩ := val
      have hs : (stepFn hash s (.process f env)).messages = []
          ∧ (stepFn hash s (.process f env)).message_counter = 0 := by
        simp [stepFn, handleProcessClick, hp]
      refine ⟨⟨?_, ?_⟩, Or.inr hs.1⟩
      · intro m hm
        rw [hs.1] at hm
        simp at hm
      · rw [hs.1]
        exact List.Pairwise.nil
  | sample q inv =>
    have hs : stepFn hash s (.sample q inv) = handleChatInput s q inv := by
      simp [stepFn, handleSampleQuestion_fst]
    rw [hs]
    exact handleChatInput_log s q inv hb
  | chatInput q inv =>
    have hs : stepFn hash s (.chatInput q inv) = handleChatInput s q inv := rfl
    rw [hs]
    exact handleChatInput_log s q inv hb

theorem runSession_logInv (hash : String → Int) (steps : List Step) :
    logInv (runSession hash steps) := by
  have aux : ∀ (l : List Step) (s : SessionState), logInv s →
      logInv (l.foldl (stepFn hash) s) := by
    intro l
    induction l with
    | nil => intro s h; exact h
    | cons a l ih =>
      intro s h
      exact ih _ (stepFn_log hash s a h).1
  refine aux steps initialSession ⟨?_, ?_⟩
  · intro m hm
    simp [initialSession] at hm
  · exact List.Pairwise.nil

/-- C9: the conversation log is append-only with monotone sequence ids: in
every reachable session state the logged ids are strictly increasing, and each
further step either appends turns whose ids are strictly greater than the id of
every turn already in the log (existing turns untouched) or clears the log
wholesale. -/
theorem log_append_only_monotonic (hash : String → Int) (steps : List Step) (st : Step) :
    ((runSession hash steps).messages.Pairwise (fun a b => a.id < b.id))
    ∧ ((∃ delta, (stepFn hash (runSession hash steps) st).messages
            = (runSession hash steps).messages ++ delta
          ∧ ∀ m ∈ delta, ∀ p ∈ (runSession hash steps).messages, p.id < m.id)
        ∨ (stepFn hash (runSession hash steps) st).messages = []) := by
  have hrun := runSession_logInv hash steps
  exact ⟨hrun.2, (stepFn_log hash _ st hrun).2⟩

end ChatWithPdf
